import Mathlib

/-!
Verification of the iSCSI session/device-path reconciliation subsystem.

The repository slice under verification ships the test suite of the subsystem
(`TestExtractDeviceAndPrefix`, `TestExtractTransportname`, `TestWaitForPathToExist`,
`TestParseIscsiadmShow`, `TestClonedIface`, `TestClonedIfaceShowError`,
`TestClonedIfaceUpdateError`, `TestGetVolCount`), while the functions themselves are not part
of the slice.  Each operation is therefore modelled from the specification, with the test
suite as the binding authority wherever the two disagree, and the claims are settled against
these models.
-/

namespace IscsiSpec

deriving instance DecidableEq for Except

/-- Characters treated as intra-line whitespace by the record parser (Go `strings.Fields`). -/
def isSpc (c : Char) : Bool := c = ' ' || c = '\t'

/-- Split a character list at newline characters (Go `strings.Split(s, "\n")`).
The result is never empty; each newline separates two (possibly empty) chunks. -/
def splitOnNl : List Char → List (List Char)
  | [] => [[]]
  | c :: cs =>
    match splitOnNl cs with
    | [] => [[c]]
    | l :: ls => if c = '\n' then [] :: l :: ls else (c :: l) :: ls

/-- The lines of a string (Go `strings.Split(output, "\n")`). -/
def splitLines (s : String) : List String :=
  (splitOnNl s.data).map String.mk

/-- Accumulator-based splitting of a line into maximal whitespace-free runs. -/
def fieldsAux : List Char → List Char → List (List Char)
  | [], cur => if cur.isEmpty then [] else [cur.reverse]
  | c :: cs, cur =>
    if isSpc c then
      if cur.isEmpty then fieldsAux cs [] else cur.reverse :: fieldsAux cs []
    else fieldsAux cs (c :: cur)

/-- Whitespace-separated fields of a line (Go `strings.Fields`). -/
def fields (line : String) : List String :=
  (fieldsAux line.data []).map String.mk

/-- Whether `s` starts with `pre` (Go `strings.HasPrefix`). -/
def startsWithStr (s pre : String) : Bool := pre.data.isPrefixOf s.data

/-- First value bound to `key` in an association list, mirroring a map lookup. -/
def lookupKV : List (String × String) → String → Option String
  | [], _ => none
  | (k, v) :: ps, key => if k = key then some v else lookupKV ps key

/-- Insert-or-replace a binding, mirroring a Go map assignment `m[k] = v`
on an association list that never holds a key twice. -/
def upsert : List (String × String) → String → String → List (String × String)
  | [], k, v => [(k, v)]
  | (k0, v0) :: ps, k, v => if k0 = k then (k, v) :: ps else (k0, v0) :: upsert ps k v

/-- Modelled from the spec: one pass of `parseIscsiadmShow` (whose implementation is not in
the slice, only its tests) over the remaining lines, with the bindings accumulated so far.
Marker lines (starting with `#`) and blank lines are ignored; every other line must split
into exactly the three fields `key`, `=`, `value`, else the whole parse fails; the immutable
key `iface.iscsi_ifacename` is skipped (pinned by the expected maps of
`TestParseIscsiadmShow`); a value equal to the sentinel `<empty>` causes the key to be
omitted from the result; any other binding is stored. -/
def parseShowLines : List String → List (String × String) → Except String (List (String × String))
  | [], acc => .ok acc
  | line :: rest, acc =>
    if startsWithStr line "#" then parseShowLines rest acc
    else
      match fields line with
      | [] => parseShowLines rest acc
      | [k, eqSym, v] =>
        if eqSym = "=" then
          if k = "iface.iscsi_ifacename" then parseShowLines rest acc
          else if v = "<empty>" then parseShowLines rest acc
          else parseShowLines rest (upsert acc k v)
        else .error ("invalid iface setting: " ++ line)
      | _ => .error ("invalid iface setting: " ++ line)

/-- Modelled from the spec: `parseIscsiadmShow` decodes the external tool's show output into
a key/value record, rejecting malformed setting lines. -/
def parseIscsiadmShow (output : String) : Except String (List (String × String)) :=
  parseShowLines (splitLines output) []

/-- Value of the first line carrying the transport-name key, if any. -/
def findTransportValue : List String → Option String
  | [] => none
  | line :: rest =>
    if startsWithStr line "iface.transport_name = " then
      some (String.mk (line.data.drop "iface.transport_name = ".data.length))
    else findTransportValue rest

/-- Modelled from the spec: `extractTransportname` (implementation not in the slice, only its
tests) scans the raw show output for the `iface.transport_name` setting.  A sentinel value
`<empty>` yields the default `"tcp"`; a record with no such line yields `""` — the latter is
pinned by the fourth case of `TestExtractTransportname`, which expects the empty string. -/
def extractTransportname (ifaceOutput : String) : String :=
  match findTransportValue (splitLines ifaceOutput) with
  | none => ""
  | some v => if v = "<empty>" then "tcp" else v

/-- One `key = value` line of a show record. -/
def settingLine (kv : String × String) : String := kv.1 ++ " = " ++ kv.2

/-- Body of a well-formed show record: newline-terminated setting lines followed by the
closing marker. -/
def recordBody : List (String × String) → String
  | [] => "# END RECORD"
  | kv :: rest => settingLine kv ++ "\n" ++ recordBody rest

/-- A well-formed iscsiadm show record holding the given settings. -/
def mkRecord (entries : List (String × String)) : String :=
  "# BEGIN RECORD 2.0-873" ++ "\n" ++ recordBody entries

/-- Modelled from the spec: `waitForPathToExistInternal` (implementation not in the slice,
only its tests) polls for a device path with a bounded retry budget.  The filesystem stat
and glob primitives are passed as collaborators; the result carries the found flag together
with the device path as observed by the caller afterwards (the glob branch overwrites it
with the first match). -/
def waitForPathToExistInternal (devicePath : String) (maxRetries : Nat)
    (deviceTransport : String) (osStat : String → Bool)
    (filepathGlob : String → List String) : Bool × String :=
  match maxRetries with
  | 0 => (false, devicePath)
  | n + 1 =>
    if deviceTransport = "tcp" then
      if osStat devicePath then (true, devicePath)
      else waitForPathToExistInternal devicePath n deviceTransport osStat filepathGlob
    else
      match filepathGlob devicePath with
      | [] => waitForPathToExistInternal devicePath n deviceTransport osStat filepathGlob
      | p :: _ => (true, p)

/-- One external-tool invocation issued by the interface lifecycle manager. -/
inductive IscsiOp where
  | opShow : IscsiOp
  | opNew : IscsiOp
  | opUpdate : String → String → IscsiOp
  | opDelete : IscsiOp
deriving DecidableEq

/-- The update stage of `cloneIface`: apply each setting in order, consuming one external
response per attempt; on the first failure issue one compensating delete (whose own outcome
is not consulted) and stop, keeping the original update error. -/
def updateLoop (resp : Nat → Except String String) : Nat → List (String × String) →
    Option String × List IscsiOp
  | _, [] => (none, [])
  | idx, (k, v) :: rest =>
    match resp idx with
    | .ok _ =>
      let r := updateLoop resp (idx + 1) rest
      (r.1, IscsiOp.opUpdate k v :: r.2)
    | .error e => (some e, [IscsiOp.opUpdate k v, IscsiOp.opDelete])

/-- Modelled from the spec: `cloneIface` (implementation not in the slice, only its tests)
clones an interface profile through an ordered sequence of external invocations: show the
source settings, parse them, create the new profile, then update it once per copied setting
after the initiator name has been written into the record (the extra initiator-name update is
pinned by `TestClonedIface`, which expects four invocations for a record with one surviving
setting).  `resp` gives the external tool's answer to the n-th invocation; the result pairs
the outcome (the new profile's name on success) with the trace of invocations issued. -/
def cloneIface (newIfaceName initiatorName : String) (resp : Nat → Except String String) :
    Except String String × List IscsiOp :=
  match resp 0 with
  | .error e => (.error ("failed to show iface records: " ++ e), [IscsiOp.opShow])
  | .ok out =>
    match parseIscsiadmShow out with
    | .error e => (.error ("failed to parse iface records: " ++ e), [IscsiOp.opShow])
    | .ok params0 =>
      match resp 1 with
      | .error e => (.error ("failed to create new iface: " ++ e),
                     [IscsiOp.opShow, IscsiOp.opNew])
      | .ok _ =>
        match updateLoop resp 2 (upsert params0 "iface.initiatorname" initiatorName) with
        | (none, ops) => (.ok newIfaceName, IscsiOp.opShow :: IscsiOp.opNew :: ops)
        | (some e, ops) => (.error ("failed to update iface records: " ++ e),
                            IscsiOp.opShow :: IscsiOp.opNew :: ops)

/-- Whether a ref-count leaf entry names the given portal and target with any lun number
(the pattern `<portal>-<targetName>-lun-<digits>`). -/
def volMatches (portal targetName name : String) : Bool :=
  let pat := portal ++ "-" ++ targetName ++ "-lun-"
  startsWithStr name pat &&
    (let rest := name.data.drop pat.data.length
     !rest.isEmpty && rest.all Char.isDigit)

/-- Matching leaf entries inside one interface subdirectory. -/
def countLeaves (portal targetName : String) : List String → Nat
  | [] => 0
  | leaf :: rest =>
    (if volMatches portal targetName leaf then 1 else 0) + countLeaves portal targetName rest

/-- Matching leaf entries across all interface subdirectories. -/
def countTree (portal targetName : String) : List (String × List String) → Nat
  | [] => 0
  | d :: rest => countLeaves portal targetName d.2 + countTree portal targetName rest

/-- Modelled from the spec: `getVolCount` (implementation not in the slice, only its tests)
counts, over every interface subdirectory of the ref-count root, the leaf entries matching
`<portal>-<targetName>-lun-<digits>`.  The directory tree is passed as data: `none` models a
root directory that does not exist (count `0`, no error); `some dirs` models the interface
subdirectories with their leaf entries. -/
def getVolCount (root : Option (List (String × List String))) (portal targetName : String) :
    Except String Nat :=
  match root with
  | none => .ok 0
  | some dirs => .ok (countTree portal targetName dirs)

/-- Largest index at which `sub` occurs in `s` (Go `strings.LastIndex`). -/
def lastIndexOf? (s sub : String) : Option Nat :=
  (List.range (s.data.length + 1)).foldl
    (fun acc i => if sub.data.isPrefixOf (s.data.drop i) then some i else acc) none

/-- The first `n` characters of `s`. -/
def strTake (s : String) (n : Nat) : String := String.mk (s.data.take n)

/-- All but the first `n` characters of `s`. -/
def strDrop (s : String) (n : Nat) : String := String.mk (s.data.drop n)

/-- Modelled from the spec: `extractDeviceAndPrefix` (implementation not in the slice, only
its tests) returns the device descriptor after the last `/` together with the mount-path
head before the last `-lun-` marker — the latter keeps the `portal-target` segment, as
pinned by `TestExtractDeviceAndPrefix`, whose expected head is the full mount path with only
the `-lun-0` suffix removed. -/
def extractDeviceAndPrefix (mntPath : String) : Except String (String × String) :=
  match lastIndexOf? mntPath "/" with
  | none => .error ("malformatted mnt path: " ++ mntPath)
  | some ind =>
    let device := strDrop mntPath (ind + 1)
    match lastIndexOf? mntPath "-lun-" with
    | none => .error ("malformatted mnt path: " ++ mntPath)
    | some ind2 => .ok (device, strTake mntPath ind2)

/-- The source interface's show output used by `TestClonedIface` and
`TestClonedIfaceUpdateError`: three settings, two of them the `<empty>` sentinel. -/
def cloneShowOutput : String :=
  "iface.ipaddress = <empty>\niface.transport_name = tcp\niface.initiatorname = <empty>\n"

/-- External responses of the all-success clone scenario (`TestClonedIface`). -/
def cloneRespOk : Nat → Except String String
  | 0 => .ok cloneShowOutput
  | 1 => .ok "New interface 192.168.1.10:pv0001 added"
  | 2 => .ok ""
  | 3 => .ok ""
  | _ => .error "unexpected exec call"

/-- External responses when the initial show fails (`TestClonedIfaceShowError`). -/
def cloneRespShowError : Nat → Except String String
  | _ => .error "test error"

/-- External responses when the second update fails (`TestClonedIfaceUpdateError`); the
compensating delete is made to fail as well, to exercise the rule that its outcome does not
replace the original update error. -/
def cloneRespUpdateError : Nat → Except String String
  | 0 => .ok cloneShowOutput
  | 1 => .ok "New interface 192.168.1.10:pv0001 added"
  | 2 => .ok ""
  | 3 => .error "test error"
  | _ => .error "delete failed too"

/-- The ref-count tree built by `createFakePluginDir`: two interface subdirectories holding
three session leaves in total. -/
def fakePluginDir : List (String × List String) :=
  [("iface-127.0.0.1:3260:pv1",
     ["127.0.0.1:3260-iqn.2003-01.io.k8s:e2e.volume-1-lun-3"]),
   ("iface-127.0.0.1:3260:pv2",
     ["127.0.0.1:3260-iqn.2003-01.io.k8s:e2e.volume-1-lun-2",
      "192.168.0.1:3260-iqn.2003-01.io.k8s:e2e.volume-1-lun-1"])]

/-! ## General helper lemmas -/

theorem strData_append (a b : String) : (a ++ b).data = a.data ++ b.data := by
  cases a; cases b; rfl

theorem strMk_data (s : String) : String.mk s.data = s := by
  cases s; rfl

theorem isPrefixOf_append_self (l t : List Char) : l.isPrefixOf (l ++ t) = true := by
  induction l with
  | nil => simp [List.isPrefixOf]
  | cons c cs ih => simp [List.isPrefixOf, ih]

theorem isPrefixOf_space (a : List Char) : ∀ (b r s : List Char), ' ' ∉ a → ' ' ∉ b →
    (a ++ ' ' :: r).isPrefixOf (b ++ ' ' :: s) = true → a = b := by
  induction a with
  | nil =>
    intro b r s _ hb h
    cases b with
    | nil => rfl
    | cons d b' =>
      simp only [List.nil_append, List.cons_append, List.isPrefixOf, Bool.and_eq_true,
        beq_iff_eq] at h
      exact absurd (h.1 ▸ List.mem_cons_self d b') hb
  | cons c a' ih =>
    intro b r s ha hb h
    cases b with
    | nil =>
      simp only [List.cons_append, List.nil_append, List.isPrefixOf, Bool.and_eq_true,
        beq_iff_eq] at h
      exact absurd (h.1 ▸ List.mem_cons_self c a') ha
    | cons d b' =>
      simp only [List.cons_append, List.isPrefixOf, Bool.and_eq_true, beq_iff_eq] at h
      have htl := ih b' r s (fun hm => ha (List.mem_cons_of_mem _ hm))
        (fun hm => hb (List.mem_cons_of_mem _ hm)) h.2
      rw [h.1, htl]

theorem splitOnNl_ne_nil (l : List Char) : splitOnNl l ≠ [] := by
  cases l with
  | nil => simp [splitOnNl]
  | cons c cs =>
    simp only [splitOnNl]
    cases splitOnNl cs with
    | nil => simp
    | cons x xs => by_cases hc : c = '\n' <;> simp [hc]

theorem splitOnNl_no_nl (l : List Char) (h : '\n' ∉ l) : splitOnNl l = [l] := by
  induction l with
  | nil => rfl
  | cons c cs ih =>
    have hc : ¬ (c = '\n') := fun hh => h (hh ▸ List.mem_cons_self c cs)
    have hcs : '\n' ∉ cs := fun hm => h (List.mem_cons_of_mem _ hm)
    simp [splitOnNl, ih hcs, hc]

theorem splitOnNl_append_nl (a : List Char) : ∀ b, '\n' ∉ a →
    splitOnNl (a ++ '\n' :: b) = a :: splitOnNl b := by
  induction a with
  | nil =>
    intro b _
    simp only [List.nil_append, splitOnNl]
    cases hb : splitOnNl b with
    | nil => exact absurd hb (splitOnNl_ne_nil b)
    | cons x xs => simp
  | cons c a' ih =>
    intro b h
    have hc : ¬ (c = '\n') := fun hh => h (hh ▸ List.mem_cons_self c a')
    have h' : '\n' ∉ a' := fun hm => h (List.mem_cons_of_mem _ hm)
    simp [splitOnNl, ih b h', hc]

theorem fieldsAux_mem_ne_nil (l : List Char) : ∀ cur a, a ∈ fieldsAux l cur → a ≠ [] := by
  induction l with
  | nil =>
    intro cur a ha
    simp only [fieldsAux] at ha
    split at ha
    · simp at ha
    · rename_i hcur
      simp only [List.mem_singleton] at ha
      subst ha
      cases cur with
      | nil => simp at hcur
      | cons x xs => simp
  | cons c cs ih =>
    intro cur a ha
    simp only [fieldsAux] at ha
    split at ha
    · split at ha
      · exact ih [] a ha
      · rename_i hcur
        rcases List.mem_cons.mp ha with h | h
        · subst h
          cases cur with
          | nil => simp at hcur
          | cons x xs => simp
        · exact ih [] a h
    · exact ih (c :: cur) a ha

theorem fields_mem_ne_empty {line f : String} (h : f ∈ fields line) : f ≠ "" := by
  simp only [fields, List.mem_map] at h
  obtain ⟨a, ha, rfl⟩ := h
  have := fieldsAux_mem_ne_nil line.data [] a ha
  intro hcontra
  exact this (congrArg String.data hcontra)

theorem lookupKV_mem : ∀ {ps : List (String × String)} {key v : String},
    lookupKV ps key = some v → (key, v) ∈ ps := by
  intro ps
  induction ps with
  | nil => intro key v h; simp [lookupKV] at h
  | cons p ps ih =>
    intro key v h
    obtain ⟨k0, v0⟩ := p
    simp only [lookupKV] at h
    split at h
    · rename_i hk
      cases h
      subst hk
      exact List.mem_cons_self _ _
    · exact List.mem_cons_of_mem _ (ih h)

theorem lookupKV_upsert_ne : ∀ (ps : List (String × String)) {k key : String} (v : String),
    k ≠ key → lookupKV (upsert ps k v) key = lookupKV ps key := by
  intro ps
  induction ps with
  | nil => intro k key v h; simp [upsert, lookupKV, h]
  | cons p ps ih =>
    intro k key v h
    obtain ⟨k0, v0⟩ := p
    simp only [upsert]
    split
    · rename_i hk0
      subst hk0
      simp [lookupKV, h]
    · simp only [lookupKV]
      split
      · rfl
      · exact ih v h

theorem upsert_mem : ∀ {ps : List (String × String)} {k v : String} {kv : String × String},
    kv ∈ upsert ps k v → kv ∈ ps ∨ kv = (k, v) := by
  intro ps
  induction ps with
  | nil => intro k v kv h; simp [upsert] at h; exact Or.inr h
  | cons p ps ih =>
    intro k v kv h
    obtain ⟨k0, v0⟩ := p
    simp only [upsert] at h
    split at h
    · rcases List.mem_cons.mp h with h | h
      · exact Or.inr h
      · exact Or.inl (List.mem_cons_of_mem _ h)
    · rcases List.mem_cons.mp h with h | h
      · exact Or.inl (h ▸ List.mem_cons_self _ _)
      · rcases ih h with h' | h'
        · exact Or.inl (List.mem_cons_of_mem _ h')
        · exact Or.inr h'

theorem foldl_find_spec (P : Nat → Bool) : ∀ (l : List Nat) (acc : Option Nat) (i : Nat),
    (∀ j, acc = some j → P j = true) →
    List.foldl (fun a x => if P x then some x else a) acc l = some i → P i = true := by
  intro l
  induction l with
  | nil => intro acc i hacc h; exact hacc i h
  | cons x xs ih =>
    intro acc i hacc h
    simp only [List.foldl_cons] at h
    refine ih _ i ?_ h
    intro j hj
    split at hj
    · rename_i hx
      cases hj
      exact hx
    · exact hacc j hj

theorem lastIndexOf?_isPrefixOf {s sub : String} {i : Nat} (h : lastIndexOf? s sub = some i) :
    sub.data.isPrefixOf (s.data.drop i) = true := by
  unfold lastIndexOf? at h
  exact foldl_find_spec (fun j => sub.data.isPrefixOf (s.data.drop j)) _ none i
    (by intro j hj; simp at hj) h

theorem strTake_append_strDrop (s : String) (n : Nat) : strTake s n ++ strDrop s n = s := by
  have h : strTake s n ++ strDrop s n = String.mk (s.data.take n ++ s.data.drop n) := rfl
  rw [h, List.take_append_drop]

/-! ## Device-path waiter lemmas -/

theorem waitFor_tcp_stat_false (path : String) (n : Nat) (stat : String → Bool)
    (g : String → List String) (h : stat path = false) :
    waitForPathToExistInternal path n "tcp" stat g = (false, path) := by
  induction n with
  | zero => rfl
  | succ n ih => simp [waitForPathToExistInternal, h, ih]

theorem waitFor_nontcp_glob_nil (path : String) (n : Nat) (t : String) (stat : String → Bool)
    (g : String → List String) (ht : t ≠ "tcp") (h : g path = []) :
    waitForPathToExistInternal path n t stat g = (false, path) := by
  induction n with
  | zero => rfl
  | succ n ih => simp [waitForPathToExistInternal, ht, h, ih]

/-- C5: for the default transport `"tcp"`, the device-path waiter decides existence solely by
a stat of the literal path — its result does not depend on the glob collaborator at all, and
(given at least one retry) it reports found exactly when the stat succeeds; for any other
transport name, the result does not depend on the stat collaborator, and existence holds
exactly when glob expansion yields at least one match. -/
theorem waitForPath_transport_dispatch :
    (∀ path n stat g g',
       waitForPathToExistInternal path n "tcp" stat g
         = waitForPathToExistInternal path n "tcp" stat g')
    ∧ (∀ path n stat g, 1 ≤ n →
         ((waitForPathToExistInternal path n "tcp" stat g).1 = true ↔ stat path = true))
    ∧ (∀ path n t stat stat' g, t ≠ "tcp" →
         waitForPathToExistInternal path n t stat g
           = waitForPathToExistInternal path n t stat' g)
    ∧ (∀ path n t stat g, t ≠ "tcp" → 1 ≤ n →
         ((waitForPathToExistInternal path n t stat g).1 = true ↔ g path ≠ [])) := by
  refine ⟨?_, ?_, ?_, ?_⟩
  · intro path n stat g g'
    induction n with
    | zero => rfl
    | succ n ih =>
      cases hs : stat path <;> simp [waitForPathToExistInternal, hs, ih]
  · intro path n stat g h1
    cases hs : stat path with
    | false => rw [waitFor_tcp_stat_false path n stat g hs]
    | true =>
      cases n with
      | zero => simp at h1
      | succ n => simp [waitForPathToExistInternal, hs]
  · intro path n t stat stat' g ht
    induction n with
    | zero => rfl
    | succ n ih =>
      cases hg : g path <;> simp [waitForPathToExistInternal, ht, hg, ih]
  · intro path n t stat g ht h1
    cases hg : g path with
    | nil => rw [waitFor_nontcp_glob_nil path n t stat g ht hg]; simp [hg]
    | cons p ps =>
      cases n with
      | zero => simp at h1
      | succ n => simp [waitForPathToExistInternal, ht, hg]

/-- Closed instance of `waitForPath_transport_dispatch`: all four dispatch behaviours at
concrete inputs, including the tcp case where a matching glob exists but is never consulted. -/
theorem waitForPath_transport_dispatch_witness :
    (waitForPathToExistInternal "/dev/a" 1 "tcp" (fun _ => true) (fun _ => [])).1 = true
    ∧ (waitForPathToExistInternal "/dev/a*" 1 "tcp" (fun _ => false) (fun p => [p])).1 = false
    ∧ (waitForPathToExistInternal "/dev/a*" 1 "fake_iface" (fun _ => true) (fun _ => [])).1
        = false
    ∧ (waitForPathToExistInternal "pat" 1 "fake_iface" (fun _ => false) (fun p => [p])).1
        = true := by
  have h := waitForPath_transport_dispatch
  refine ⟨?_, ?_, ?_, ?_⟩
  · exact (h.2.1 "/dev/a" 1 (fun _ => true) (fun _ => []) (by decide)).mpr rfl
  · have h2 := h.2.1 "/dev/a*" 1 (fun _ => false) (fun p => [p]) (by decide)
    simpa using h2
  · have h2 := h.2.2.2 "/dev/a*" 1 "fake_iface" (fun _ => true) (fun _ => []) (by decide)
      (by decide)
    simpa using h2
  · exact (h.2.2.2 "pat" 1 "fake_iface" (fun _ => false) (fun p => [p]) (by decide)
      (by decide)).mpr (by simp)

/-- C8: with a non-tcp transport and a successful glob expansion, the waiter returns found
and overwrites the caller's device path with the first concrete match of the expansion. -/
theorem waitForPath_glob_overwrites_path :
    ∀ path n t stat g p ps, t ≠ "tcp" → 1 ≤ n → g path = p :: ps →
      waitForPathToExistInternal path n t stat g = (true, p) := by
  intro path n t stat g p ps ht h1 hg
  cases n with
  | zero => simp at h1
  | succ n => simp [waitForPathToExistInternal, ht, hg]

/-- Closed instance of `waitForPath_glob_overwrites_path`, mirroring the `fakeFilepathGlob2`
case of `TestWaitForPathToExist`: the wildcard pattern is replaced by the resolved node. -/
theorem waitForPath_glob_overwrites_path_witness :
    waitForPathToExistInternal
        "/dev/disk/by-path/pci-*-ip-127.0.0.1:3260-iqn.2014-12.com.example:test.tgt00-lun-0"
        1 "fake_iface" (fun _ => false)
        (fun _ =>
          ["/dev/disk/by-path/pci-0000:00:00.0-ip-127.0.0.1:3260-iqn.2014-12.com.example:test.tgt00-lun-0"])
      = (true,
         "/dev/disk/by-path/pci-0000:00:00.0-ip-127.0.0.1:3260-iqn.2014-12.com.example:test.tgt00-lun-0") :=
  waitForPath_glob_overwrites_path _ 1 _ _ _ _ _ (by decide) (by decide) rfl

/-! ## Reference-counter lemmas -/

theorem countLeaves_eq_filter (portal target : String) (leaves : List String) :
    countLeaves portal target leaves = (leaves.filter (volMatches portal target)).length := by
  induction leaves with
  | nil => rfl
  | cons leaf rest ih =>
    cases hv : volMatches portal target leaf <;>
      simp [countLeaves, List.filter_cons, hv, ih] <;> omega

theorem countTree_eq_sum (portal target : String) (dirs : List (String × List String)) :
    countTree portal target dirs
      = (dirs.map fun d => (d.2.filter (volMatches portal target)).length).sum := by
  induction dirs with
  | nil => rfl
  | cons d rest ih => simp [countTree, countLeaves_eq_filter, ih]

theorem countLeaves_zero (portal target : String) (leaves : List String)
    (h : ∀ leaf ∈ leaves, volMatches portal target leaf = false) :
    countLeaves portal target leaves = 0 := by
  induction leaves with
  | nil => rfl
  | cons leaf rest ih =>
    simp [countLeaves, h leaf (List.mem_cons_self _ _),
      ih fun l hl => h l (List.mem_cons_of_mem _ hl)]

theorem countTree_zero (portal target : String) (dirs : List (String × List String))
    (h : ∀ d ∈ dirs, ∀ leaf ∈ d.2, volMatches portal target leaf = false) :
    countTree portal target dirs = 0 := by
  induction dirs with
  | nil => rfl
  | cons d rest ih =>
    simp only [countTree, countLeaves_zero portal target d.2 (h d (List.mem_cons_self _ _)),
      ih fun d' hd' => h d' (List.mem_cons_of_mem _ hd'), Nat.add_zero]

/-- C6: `getVolCount` returns, with no error, the number of leaf entries matching
`<portal>-<targetName>-lun-<digits>` summed over all interface subdirectories; a missing
root directory or a portal/target pair with no matches yields `0` with no error.  The last
four conjuncts evaluate the model on the tree of `createFakePluginDir` with the four
portal/target pairs of `TestGetVolCount`, reproducing the expected counts 0, 0, 1 and 2. -/
theorem getVolCount_counts_matching_leaves :
    (∀ portal target, getVolCount none portal target = .ok 0)
    ∧ (∀ portal target dirs,
         getVolCount (some dirs) portal target
           = .ok ((dirs.map fun d => (d.2.filter (volMatches portal target)).length).sum))
    ∧ (∀ portal target dirs,
         (∀ d ∈ dirs, ∀ leaf ∈ d.2, volMatches portal target leaf = false) →
         getVolCount (some dirs) portal target = .ok 0)
    ∧ getVolCount (some fakePluginDir) "192.168.0.2:3260" "iqn.2003-01.io.k8s:e2e.volume-1"
        = .ok 0
    ∧ getVolCount (some fakePluginDir) "127.0.0.1:3260" "iqn.2003-01.io.k8s:e2e.volume-3"
        = .ok 0
    ∧ getVolCount (some fakePluginDir) "192.168.0.1:3260" "iqn.2003-01.io.k8s:e2e.volume-1"
        = .ok 1
    ∧ getVolCount (some fakePluginDir) "127.0.0.1:3260" "iqn.2003-01.io.k8s:e2e.volume-1"
        = .ok 2 := by
  refine ⟨fun _ _ => rfl, ?_, ?_, by decide, by decide, by decide, by decide⟩
  · intro portal target dirs
    simp [getVolCount, countTree_eq_sum]
  · intro portal target dirs h
    simp [getVolCount, countTree_zero portal target dirs h]

/-- Closed instance of `getVolCount_counts_matching_leaves`: the no-match conjunct applied to
the fake plugin tree with a portal served by no session leaf. -/
theorem getVolCount_counts_matching_leaves_witness :
    getVolCount (some fakePluginDir) "10.0.0.9:3260" "iqn.2003-01.io.k8s:e2e.volume-1"
      = .ok 0 :=
  getVolCount_counts_matching_leaves.2.2.1 "10.0.0.9:3260" "iqn.2003-01.io.k8s:e2e.volume-1"
    fakePluginDir (by decide)

/-! ## Identifier parser: C9 -/

/-- C9 counterexample: on the valid device path `a/p-t-lun-0` the extracted components are
`device = p-t-lun-0` and mount-path head `a/p-t`, and concatenating the two (with or without
a separating slash) duplicates the `p-t` segment instead of reconstructing the input. -/
theorem extractDeviceAndPrefix_reconcat_counterexample :
    extractDeviceAndPrefix "a/p-t-lun-0" = .ok ("p-t-lun-0", "a/p-t")
    ∧ ("a/p-t" ++ "p-t-lun-0" : String) ≠ "a/p-t-lun-0"
    ∧ ("a/p-t" ++ "/" ++ "p-t-lun-0" : String) ≠ "a/p-t-lun-0" :=
  ⟨by decide, by decide, by decide⟩

/-- C9 amended: whenever `extractDeviceAndPrefix` succeeds, the original path is
reconstructed by appending to the returned head the path's trailing segment from the last
`-lun-` marker onwards, and likewise by prepending to the returned device the path's leading
segment through the last `/`; the head and the device overlap in the portal-target segment,
so their direct concatenation is not the reconstruction. -/
theorem extractDeviceAndPrefix_reconstruction :
    ∀ path device pre,
      extractDeviceAndPrefix path = .ok (device, pre) →
      (∃ i, lastIndexOf? path "-lun-" = some i
          ∧ pre = strTake path i
          ∧ pre ++ strDrop path i = path
          ∧ startsWithStr (strDrop path i) "-lun-" = true)
      ∧ (∃ j, lastIndexOf? path "/" = some j
          ∧ device = strDrop path (j + 1)
          ∧ strTake path (j + 1) ++ device = path) := by
  intro path device pre h
  unfold extractDeviceAndPrefix at h
  cases hj : lastIndexOf? path "/" with
  | none => rw [hj] at h; cases h
  | some j =>
    rw [hj] at h
    cases hi : lastIndexOf? path "-lun-" with
    | none => rw [hi] at h; cases h
    | some i =>
      simp only [hi, Except.ok.injEq, Prod.mk.injEq] at h
      obtain ⟨hdev, hpre⟩ := h
      refine ⟨⟨i, rfl, hpre.symm, ?_, ?_⟩, ⟨j, rfl, hdev.symm, ?_⟩⟩
      · rw [← hpre]; exact strTake_append_strDrop path i
      · exact lastIndexOf?_isPrefixOf hi
      · rw [← hdev]; exact strTake_append_strDrop path (j + 1)

/-- Closed instance of `extractDeviceAndPrefix_reconstruction` on the path `a/p-t-lun-0`. -/
theorem extractDeviceAndPrefix_reconstruction_witness :
    (∃ i, lastIndexOf? "a/p-t-lun-0" "-lun-" = some i
        ∧ "a/p-t" = strTake "a/p-t-lun-0" i
        ∧ "a/p-t" ++ strDrop "a/p-t-lun-0" i = "a/p-t-lun-0"
        ∧ startsWithStr (strDrop "a/p-t-lun-0" i) "-lun-" = true)
    ∧ (∃ j, lastIndexOf? "a/p-t-lun-0" "/" = some j
        ∧ "p-t-lun-0" = strDrop "a/p-t-lun-0" (j + 1)
        ∧ strTake "a/p-t-lun-0" (j + 1) ++ "p-t-lun-0" = "a/p-t-lun-0") :=
  extractDeviceAndPrefix_reconstruction "a/p-t-lun-0" "p-t-lun-0" "a/p-t" (by decide)

/-! ## Record parser: C4 and C7 -/

theorem parseShowLines_values_ne_empty :
    ∀ (ls : List String) (acc m : List (String × String)),
      parseShowLines ls acc = .ok m →
      (∀ kv ∈ acc, kv.2 ≠ "") → ∀ kv ∈ m, kv.2 ≠ "" := by
  intro ls
  induction ls with
  | nil =>
    intro acc m h hacc
    cases h
    exact hacc
  | cons line rest ih =>
    intro acc m h hacc
    simp only [parseShowLines] at h
    split at h
    · exact ih acc m h hacc
    · split at h
      · exact ih acc m h hacc
      · rename_i k eqSym v hfields
        split at h
        · split at h
          · exact ih acc m h hacc
          · split at h
            · exact ih acc m h hacc
            · refine ih _ m h ?_
              intro kv hkv
              rcases upsert_mem hkv with hmem | heq
              · exact hacc kv hmem
              · subst heq
                exact fields_mem_ne_empty (by rw [hfields]; simp)
        · cases h
      · cases h

theorem parseShowLines_key_only_sentinel :
    ∀ (ls : List String) (acc m : List (String × String)) (key : String),
      parseShowLines ls acc = .ok m →
      (∀ line ∈ ls, (fields line).length = 3 → (fields line).get? 0 = some key →
         (fields line).get? 1 = some "=" → (fields line).get? 2 = some "<empty>") →
      lookupKV acc key = none → lookupKV m key = none := by
  intro ls
  induction ls with
  | nil =>
    intro acc m key h _ hacc
    cases h
    exact hacc
  | cons line rest ih =>
    intro acc m key h hH hacc
    have hHrest : ∀ l ∈ rest, (fields l).length = 3 → (fields l).get? 0 = some key →
        (fields l).get? 1 = some "=" → (fields l).get? 2 = some "<empty>" :=
      fun l hl => hH l (List.mem_cons_of_mem _ hl)
    simp only [parseShowLines] at h
    split at h
    · exact ih acc m key h hHrest hacc
    · split at h
      · exact ih acc m key h hHrest hacc
      · rename_i k eqSym v hfields
        split at h
        · split at h
          · exact ih acc m key h hHrest hacc
          · split at h
            · exact ih acc m key h hHrest hacc
            · rename_i heqSym hkn hv
              by_cases hk : k = key
              · subst hk
                have := hH line (List.mem_cons_self _ _) (by rw [hfields]; rfl)
                  (by rw [hfields]; rfl) (by simp [hfields, heqSym])
                rw [hfields] at this
                simp at this
                exact absurd this hv
              · refine ih _ m key h hHrest ?_
                rw [lookupKV_upsert_ne acc v hk]
                exact hacc
        · cases h
      · cases h

/-- C4: a `key = value` line whose value is exactly the sentinel `<empty>` leaves that key
entirely out of the record returned by `parseIscsiadmShow`: if every line binding a key does
so with the sentinel value, the key is absent from the result, and no key is ever stored
with the empty string as its value — so a caller cannot tell a key that was never present
from one whose value was the sentinel. -/
theorem parseIscsiadmShow_sentinel_key_omitted :
    (∀ out key m,
       parseIscsiadmShow out = .ok m →
       (∀ line ∈ splitLines out, (fields line).length = 3 →
          (fields line).get? 0 = some key → (fields line).get? 1 = some "=" →
          (fields line).get? 2 = some "<empty>") →
       lookupKV m key = none)
    ∧ (∀ out m key v, parseIscsiadmShow out = .ok m → lookupKV m key = some v → v ≠ "") := by
  constructor
  · intro out key m h hH
    exact parseShowLines_key_only_sentinel (splitLines out) [] m key h hH rfl
  · intro out m key v h hlook
    exact parseShowLines_values_ne_empty (splitLines out) [] m h (by simp) (key, v)
      (lookupKV_mem hlook)

/-- Closed instance of `parseIscsiadmShow_sentinel_key_omitted` on the third record of
`TestParseIscsiadmShow`: the transport-name key, bound to `<empty>`, is absent from the
parsed record. -/
theorem parseIscsiadmShow_sentinel_key_omitted_witness :
    parseIscsiadmShow
        "# BEGIN RECORD 2.0-873\niface.iscsi_ifacename = custom\niface.transport_name = <empty>\niface.initiatorname = <empty>\niface.mtu = 0\n# END RECORD"
      = .ok [("iface.mtu", "0")]
    ∧ lookupKV [("iface.mtu", "0")] "iface.transport_name" = none := by
  constructor
  · decide
  · exact parseIscsiadmShow_sentinel_key_omitted.1
      "# BEGIN RECORD 2.0-873\niface.iscsi_ifacename = custom\niface.transport_name = <empty>\niface.initiatorname = <empty>\niface.mtu = 0\n# END RECORD"
      "iface.transport_name" [("iface.mtu", "0")] (by decide) (by decide)

theorem parseShowLines_malformed :
    ∀ (ls : List String) (acc : List (String × String)) (line : String),
      line ∈ ls → startsWithStr line "#" = false → fields line ≠ [] →
      ¬ ((fields line).length = 3 ∧ (fields line).get? 1 = some "=") →
      (parseShowLines ls acc).isOk = false := by
  intro ls
  induction ls with
  | nil => intro acc line hmem; simp at hmem
  | cons hd rest ih =>
    intro acc line hmem hmark hne hshape
    rcases List.mem_cons.mp hmem with rfl | hmem'
    · cases hfl : fields line with
      | nil => exact absurd hfl hne
      | cons f1 tl1 =>
        cases tl1 with
        | nil => simp [parseShowLines, hmark, hfl, Except.isOk, Except.toBool]
        | cons f2 tl2 =>
          cases tl2 with
          | nil => simp [parseShowLines, hmark, hfl, Except.isOk, Except.toBool]
          | cons f3 tl3 =>
            cases tl3 with
            | nil =>
              have he : ¬ (f2 = "=") := by
                intro hcontra
                exact hshape (by rw [hfl, hcontra]; exact ⟨rfl, rfl⟩)
              simp [parseShowLines, hmark, hfl, he, Except.isOk, Except.toBool]
            | cons f4 tl4 => simp [parseShowLines, hmark, hfl, Except.isOk, Except.toBool]
    · simp only [parseShowLines]
      split
      · exact ih acc line hmem' hmark hne hshape
      · split
        · exact ih acc line hmem' hmark hne hshape
        · split
          · split
            · exact ih acc line hmem' hmark hne hshape
            · split
              · exact ih acc line hmem' hmark hne hshape
              · exact ih _ line hmem' hmark hne hshape
          · rfl
        · rfl

/-- C7: any input one of whose lines is a setting line (not a `#` marker, not blank) that
does not have the shape `key = value` — no spaces around `=`, `=` replaced by another token,
too few or too many fields — makes `parseIscsiadmShow` fail. -/
theorem parseIscsiadmShow_malformed_line_errors :
    ∀ out line, line ∈ splitLines out →
      startsWithStr line "#" = false →
      fields line ≠ [] →
      ¬ ((fields line).length = 3 ∧ (fields line).get? 1 = some "=") →
      (parseIscsiadmShow out).isOk = false := by
  intro out line h1 h2 h3 h4
  exact parseShowLines_malformed (splitLines out) [] line h1 h2 h3 h4

/-- Closed instance of `parseIscsiadmShow_malformed_line_errors` on the two malformed inputs
of `TestParseIscsiadmShow`: `=` without surrounding spaces, and `=` replaced by `+`. -/
theorem parseIscsiadmShow_malformed_line_errors_witness :
    (parseIscsiadmShow "iface.iscsi_ifacename=error").isOk = false
    ∧ (parseIscsiadmShow "iface.iscsi_ifacename + error").isOk = false :=
  ⟨parseIscsiadmShow_malformed_line_errors "iface.iscsi_ifacename=error"
      "iface.iscsi_ifacename=error" (by decide) (by decide) (by decide) (by decide),
   parseIscsiadmShow_malformed_line_errors "iface.iscsi_ifacename + error"
      "iface.iscsi_ifacename + error" (by decide) (by decide) (by decide) (by decide)⟩

/-! ## Interface lifecycle manager: C2, C3, C10 -/

theorem updateLoop_all_ok :
    ∀ (ps : List (String × String)) (resp : Nat → Except String String) (idx : Nat),
      (∀ i, i < ps.length → (resp (idx + i)).isOk = true) →
      updateLoop resp idx ps = (none, ps.map fun kv => IscsiOp.opUpdate kv.1 kv.2) := by
  intro ps
  induction ps with
  | nil => intro resp idx _; rfl
  | cons kv rest ih =>
    intro resp idx h
    obtain ⟨k, v⟩ := kv
    have h0 : (resp idx).isOk = true := by simpa using h 0 (by simp)
    cases hr : resp idx with
    | error e0 => rw [hr] at h0; simp [Except.isOk, Except.toBool] at h0
    | ok s =>
      have hrest : updateLoop resp (idx + 1) rest
          = (none, rest.map fun kv => IscsiOp.opUpdate kv.1 kv.2) := by
        refine ih resp (idx + 1) ?_
        intro i hi
        have h2 := h (i + 1) (by simpa using Nat.succ_lt_succ hi)
        have he : idx + (i + 1) = idx + 1 + i := by omega
        rw [he] at h2
        exact h2
      simp [updateLoop, hr, hrest]

theorem updateLoop_first_error :
    ∀ (p₁ : List (String × String)) (k v : String) (p₂ : List (String × String))
      (resp : Nat → Except String String) (idx : Nat) (e : String),
      (∀ i, i < p₁.length → (resp (idx + i)).isOk = true) →
      resp (idx + p₁.length) = .error e →
      updateLoop resp idx (p₁ ++ (k, v) :: p₂)
        = (some e, (p₁ ++ [(k, v)]).map (fun kv => IscsiOp.opUpdate kv.1 kv.2)
            ++ [IscsiOp.opDelete]) := by
  intro p₁
  induction p₁ with
  | nil =>
    intro k v p₂ resp idx e _ herr
    simp only [List.length_nil, Nat.add_zero] at herr
    simp [updateLoop, herr]
  | cons kv0 rest ih =>
    intro k v p₂ resp idx e hok herr
    obtain ⟨k0, v0⟩ := kv0
    have h0 : (resp idx).isOk = true := by simpa using hok 0 (by simp)
    cases hr : resp idx with
    | error e0 => rw [hr] at h0; simp [Except.isOk, Except.toBool] at h0
    | ok s =>
      have hok' : ∀ i, i < rest.length → (resp (idx + 1 + i)).isOk = true := by
        intro i hi
        have h2 := hok (i + 1) (by simpa using Nat.succ_lt_succ hi)
        have he : idx + (i + 1) = idx + 1 + i := by omega
        rw [he] at h2
        exact h2
      have herr' : resp (idx + 1 + rest.length) = .error e := by
        have he : idx + (rest.length + 1) = idx + 1 + rest.length := by omega
        rw [← he]
        simpa using herr
      have hrec := ih k v p₂ resp (idx + 1) e hok' herr'
      simp [updateLoop, hr, hrec]

/-- C2: if the initial show invocation fails, `cloneIface` stops after that single
invocation (in particular no profile-creating `new` is ever issued) and surfaces the show
error; if an update invocation fails after some successful ones, the full invocation
sequence is the show, the new, the attempted updates and exactly one compensating delete,
and the error surfaced is the original update error — the response to the delete is left
completely unconstrained, so a failing delete changes nothing. -/
theorem cloneIface_failure_handling :
    (∀ newI initN (resp : Nat → Except String String) e,
       resp 0 = .error e →
       cloneIface newI initN resp
         = (.error ("failed to show iface records: " ++ e), [IscsiOp.opShow]))
    ∧ (∀ newI initN (resp : Nat → Except String String) out0 out1 params0 p₁ k v p₂ e,
       resp 0 = .ok out0 →
       parseIscsiadmShow out0 = .ok params0 →
       resp 1 = .ok out1 →
       upsert params0 "iface.initiatorname" initN = p₁ ++ (k, v) :: p₂ →
       (∀ i, i < p₁.length → (resp (2 + i)).isOk = true) →
       resp (2 + p₁.length) = .error e →
       cloneIface newI initN resp
         = (.error ("failed to update iface records: " ++ e),
            IscsiOp.opShow :: IscsiOp.opNew ::
              ((p₁ ++ [(k, v)]).map (fun kv => IscsiOp.opUpdate kv.1 kv.2)
                ++ [IscsiOp.opDelete]))) := by
  constructor
  · intro newI initN resp e h
    simp [cloneIface, h]
  · intro newI initN resp out0 out1 params0 p₁ k v p₂ e h0 hp h1 hup hok herr
    have hloop := updateLoop_first_error p₁ k v p₂ resp 2 e hok herr
    rw [← hup] at hloop
    simp [cloneIface, h0, hp, h1, hloop]

/-- Closed instance of `cloneIface_failure_handling` on the `TestClonedIfaceShowError` and
`TestClonedIfaceUpdateError` scenarios; in the latter the delete response is itself an
error, and the surfaced error is still the update's. -/
theorem cloneIface_failure_handling_witness :
    cloneIface "192.168.1.10:pv0001" "" cloneRespShowError
      = (.error "failed to show iface records: test error", [IscsiOp.opShow])
    ∧ cloneIface "192.168.1.10:pv0001" "" cloneRespUpdateError
      = (.error "failed to update iface records: test error",
         [IscsiOp.opShow, IscsiOp.opNew, IscsiOp.opUpdate "iface.transport_name" "tcp",
          IscsiOp.opUpdate "iface.initiatorname" "", IscsiOp.opDelete]) := by
  constructor
  · exact (cloneIface_failure_handling.1 "192.168.1.10:pv0001" "" cloneRespShowError
      "test error" rfl).trans (by decide)
  · exact (cloneIface_failure_handling.2 "192.168.1.10:pv0001" "" cloneRespUpdateError
      cloneShowOutput "New interface 192.168.1.10:pv0001 added"
      [("iface.transport_name", "tcp")] [("iface.transport_name", "tcp")]
      "iface.initiatorname" "" [] "test error" rfl (by decide) rfl (by decide)
      (by decide) (by decide)).trans (by decide)

/-- C3 amended: on every success path the invocation sequence is the show, the new, then one
update per setting of the copied record after the initiator name has been written into it —
that is, one update per non-default source setting plus one for the initiator name, which is
issued even when the source value was the sentinel; exactly one `new` is issued, no delete
ever is, and the new profile's name is returned. -/
theorem cloneIface_success_contract :
    ∀ newI initN (resp : Nat → Except String String) out0 out1 params0,
      resp 0 = .ok out0 →
      parseIscsiadmShow out0 = .ok params0 →
      resp 1 = .ok out1 →
      (∀ i, i < (upsert params0 "iface.initiatorname" initN).length →
        (resp (2 + i)).isOk = true) →
      cloneIface newI initN resp
        = (.ok newI,
           IscsiOp.opShow :: IscsiOp.opNew ::
             (upsert params0 "iface.initiatorname" initN).map
               (fun kv => IscsiOp.opUpdate kv.1 kv.2))
      ∧ (cloneIface newI initN resp).2.count IscsiOp.opNew = 1
      ∧ IscsiOp.opDelete ∉ (cloneIface newI initN resp).2
      ∧ (cloneIface newI initN resp).1 = .ok newI := by
  intro newI initN resp out0 out1 params0 h0 hp h1 hok
  have hloop := updateLoop_all_ok (upsert params0 "iface.initiatorname" initN) resp 2 hok
  have hmain : cloneIface newI initN resp
      = (.ok newI,
         IscsiOp.opShow :: IscsiOp.opNew ::
           (upsert params0 "iface.initiatorname" initN).map
             (fun kv => IscsiOp.opUpdate kv.1 kv.2)) := by
    simp [cloneIface, h0, hp, h1, hloop]
  have hz : ((upsert params0 "iface.initiatorname" initN).map
      (fun kv => IscsiOp.opUpdate kv.1 kv.2)).count IscsiOp.opNew = 0 := by
    rw [List.count_eq_zero]
    intro hmem
    simp [List.mem_map] at hmem
  refine ⟨hmain, ?_, ?_, ?_⟩
  · rw [hmain]
    simp [List.count_cons, hz]
  · rw [hmain]
    intro hmem
    simp [List.mem_map] at hmem
  · rw [hmain]

/-- Closed instance of `cloneIface_success_contract` on the `TestClonedIface` scenario. -/
theorem cloneIface_success_contract_witness :
    cloneIface "192.168.1.10:pv0001" "" cloneRespOk
      = (.ok "192.168.1.10:pv0001",
         [IscsiOp.opShow, IscsiOp.opNew, IscsiOp.opUpdate "iface.transport_name" "tcp",
          IscsiOp.opUpdate "iface.initiatorname" ""]) := by
  have h := (cloneIface_success_contract "192.168.1.10:pv0001" "" cloneRespOk
    cloneShowOutput "New interface 192.168.1.10:pv0001 added"
    [("iface.transport_name", "tcp")] rfl (by decide) rfl (by decide)).1
  exact h.trans (by decide)

/-- C3 counterexample: in the success scenario of `TestClonedIface` exactly one source
setting survives the sentinel filter, yet two update invocations are issued (four
invocations in total), so the sequence predicted by the claim — one update per copied
setting — is not the sequence produced. -/
theorem cloneIface_update_per_copied_setting_counterexample :
    parseIscsiadmShow cloneShowOutput = .ok [("iface.transport_name", "tcp")]
    ∧ cloneIface "192.168.1.10:pv0001" "" cloneRespOk
        = (.ok "192.168.1.10:pv0001",
           [IscsiOp.opShow, IscsiOp.opNew, IscsiOp.opUpdate "iface.transport_name" "tcp",
            IscsiOp.opUpdate "iface.initiatorname" ""])
    ∧ ((cloneIface "192.168.1.10:pv0001" "" cloneRespOk).2.filter
          (fun op => match op with | IscsiOp.opUpdate _ _ => true | _ => false)).length
        ≠ [("iface.transport_name", "tcp")].length
    ∧ (cloneIface "192.168.1.10:pv0001" "" cloneRespOk).2
        ≠ [IscsiOp.opShow, IscsiOp.opNew, IscsiOp.opUpdate "iface.transport_name" "tcp"] :=
  ⟨by decide, by decide, by decide, by decide⟩

/-- C10: on the `TestClonedIface` success path — source record `iface.ipaddress = <empty>`,
`iface.transport_name = tcp`, `iface.initiatorname = <empty>` — exactly four invocations are
issued: one show, one new and two updates, the second of which writes the initiator name on
the new profile even though the source record's initiator name was the sentinel and thus
absent from the parsed record. -/
theorem cloneIface_four_invocations :
    cloneIface "192.168.1.10:pv0001" "" cloneRespOk
      = (.ok "192.168.1.10:pv0001",
         [IscsiOp.opShow, IscsiOp.opNew, IscsiOp.opUpdate "iface.transport_name" "tcp",
          IscsiOp.opUpdate "iface.initiatorname" ""])
    ∧ (cloneIface "192.168.1.10:pv0001" "" cloneRespOk).2.length = 4
    ∧ parseIscsiadmShow cloneShowOutput = .ok [("iface.transport_name", "tcp")]
    ∧ lookupKV [("iface.transport_name", "tcp")] "iface.initiatorname" = none
    ∧ IscsiOp.opUpdate "iface.initiatorname" ""
        ∈ (cloneIface "192.168.1.10:pv0001" "" cloneRespOk).2 :=
  ⟨by decide, by decide, by decide, by decide, by decide⟩

/-! ## Transport-name derivation: C1 -/

theorem settingLine_data (k v : String) :
    (settingLine (k, v)).data = k.data ++ ' ' :: '=' :: ' ' :: v.data := by
  show (k ++ " = " ++ v).data = _
  rw [strData_append, strData_append, List.append_assoc]
  rfl

theorem settingLine_no_nl (k v : String) (hk : '\n' ∉ k.data) (hv : '\n' ∉ v.data) :
    '\n' ∉ (settingLine (k, v)).data := by
  intro hmem
  rw [settingLine_data] at hmem
  rcases List.mem_append.mp hmem with h | h
  · exact hk h
  · simp only [List.mem_cons] at h
    rcases h with h | h | h | h
    · exact absurd h (by decide)
    · exact absurd h (by decide)
    · exact absurd h (by decide)
    · exact hv h

theorem splitOnNl_recordBody :
    ∀ entries : List (String × String),
      (∀ kv ∈ entries, '\n' ∉ (settingLine kv).data) →
      splitOnNl (recordBody entries).data
        = entries.map (fun kv => (settingLine kv).data) ++ ["# END RECORD".data] := by
  intro entries
  induction entries with
  | nil =>
    intro _
    simp only [recordBody, List.map_nil, List.nil_append]
    exact splitOnNl_no_nl _ (by decide)
  | cons kv rest ih =>
    intro h
    have hdata : (recordBody (kv :: rest)).data
        = (settingLine kv).data ++ '\n' :: (recordBody rest).data := by
      show (settingLine kv ++ "\n" ++ recordBody rest).data = _
      rw [strData_append, strData_append, List.append_assoc]
      rfl
    rw [hdata, splitOnNl_append_nl _ _ (h kv (List.mem_cons_self _ _)),
      ih (fun kv' h' => h kv' (List.mem_cons_of_mem _ h'))]
    simp

theorem splitLines_mkRecord (entries : List (String × String))
    (h : ∀ kv ∈ entries, '\n' ∉ (settingLine kv).data) :
    splitLines (mkRecord entries)
      = "# BEGIN RECORD 2.0-873" :: entries.map settingLine ++ ["# END RECORD"] := by
  have hdata : (mkRecord entries).data
      = "# BEGIN RECORD 2.0-873".data ++ '\n' :: (recordBody entries).data := by
    show ("# BEGIN RECORD 2.0-873" ++ "\n" ++ recordBody entries).data = _
    rw [strData_append, strData_append, List.append_assoc]
    rfl
  unfold splitLines
  rw [hdata, splitOnNl_append_nl _ _ (by decide), splitOnNl_recordBody entries h]
  simp only [List.map_cons, List.map_append, List.map_map]
  have hfun : (String.mk ∘ fun kv => (settingLine kv).data) = settingLine :=
    funext fun kv => strMk_data _
  rw [strMk_data, hfun, strMk_data]
  rfl

theorem settingLine_target_data (v : String) :
    (settingLine ("iface.transport_name", v)).data
      = "iface.transport_name = ".data ++ v.data := by
  have hsplit : "iface.transport_name = ".data
      = "iface.transport_name".data ++ [' ', '=', ' '] := by decide
  rw [settingLine_data, hsplit, List.append_assoc]
  rfl

theorem startsWith_settingLine_target (v : String) :
    startsWithStr (settingLine ("iface.transport_name", v)) "iface.transport_name = "
      = true := by
  unfold startsWithStr
  rw [settingLine_target_data]
  exact isPrefixOf_append_self _ _

theorem drop_settingLine_target (v : String) :
    (settingLine ("iface.transport_name", v)).data.drop "iface.transport_name = ".data.length
      = v.data := by
  rw [settingLine_target_data]
  exact List.drop_left _ _

theorem not_startsWith_settingLine (k v : String) (hk : ' ' ∉ k.data)
    (hne : k ≠ "iface.transport_name") :
    startsWithStr (settingLine (k, v)) "iface.transport_name = " = false := by
  by_contra hcontra
  rw [Bool.not_eq_false] at hcontra
  unfold startsWithStr at hcontra
  rw [settingLine_data] at hcontra
  have hsplit : "iface.transport_name = ".data
      = "iface.transport_name".data ++ ' ' :: '=' :: ' ' :: [] := by decide
  rw [hsplit] at hcontra
  have heq := isPrefixOf_space "iface.transport_name".data k.data ('=' :: ' ' :: [])
    ('=' :: ' ' :: v.data) (by decide) hk hcontra
  refine hne ?_
  have hk2 : String.mk k.data = String.mk "iface.transport_name".data := by rw [heq]
  rw [strMk_data, strMk_data] at hk2
  exact hk2

theorem findTransportValue_mkLines :
    ∀ entries : List (String × String),
      (∀ kv ∈ entries, ' ' ∉ kv.1.data) →
      findTransportValue (entries.map settingLine ++ ["# END RECORD"])
        = lookupKV entries "iface.transport_name" := by
  intro entries
  induction entries with
  | nil =>
    intro _
    have hend : startsWithStr "# END RECORD" "iface.transport_name = " = false := by decide
    simp [findTransportValue, lookupKV, hend]
  | cons kv rest ih =>
    intro h
    obtain ⟨k, v⟩ := kv
    by_cases hk : k = "iface.transport_name"
    · subst hk
      simp only [List.map_cons, List.cons_append, findTransportValue,
        startsWith_settingLine_target v, if_true, lookupKV, if_pos rfl]
      rw [drop_settingLine_target, strMk_data]
    · have hfalse :=
        not_startsWith_settingLine k v (h (k, v) (List.mem_cons_self _ _)) hk
      simp only [List.map_cons, List.cons_append, findTransportValue, hfalse,
        Bool.false_eq_true, if_false, lookupKV, if_neg hk]
      exact ih fun kv' h' => h kv' (List.mem_cons_of_mem _ h')

/-- C1 counterexample: on the fourth record of `TestExtractTransportname`, which carries no
`iface.transport_name` line at all, `extractTransportname` returns the empty string, not the
default `"tcp"` the claim assigns to every absence case. -/
theorem extractTransportname_absent_counterexample :
    extractTransportname
        "# BEGIN RECORD 2.0-873\niface.iscsi_ifacename = default\niface.initiatorname = <empty>\n# END RECORD"
      = ""
    ∧ ("" : String) ≠ "tcp" :=
  ⟨by decide, by decide⟩

/-- C1 amended: over well-formed show records, `extractTransportname` returns the literal
value when the transport-name key is present with a non-sentinel value, the default `"tcp"`
when the key is present with the sentinel value `<empty>`, and the empty string — not
`"tcp"` — when the record carries no transport-name line at all. -/
theorem extractTransportname_resolution :
    ∀ entries : List (String × String),
      (∀ kv ∈ entries, '\n' ∉ kv.1.data ∧ '\n' ∉ kv.2.data ∧ ' ' ∉ kv.1.data) →
      extractTransportname (mkRecord entries)
        = (match lookupKV entries "iface.transport_name" with
           | none => ""
           | some v => if v = "<empty>" then "tcp" else v) := by
  intro entries h
  have hnl : ∀ kv ∈ entries, '\n' ∉ (settingLine kv).data := by
    intro kv hkv
    obtain ⟨k, v⟩ := kv
    exact settingLine_no_nl k v (h (k, v) hkv).1 (h (k, v) hkv).2.1
  have hsp : ∀ kv ∈ entries, ' ' ∉ kv.1.data := fun kv hkv => (h kv hkv).2.2
  have hbegin : startsWithStr "# BEGIN RECORD 2.0-873" "iface.transport_name = " = false := by
    decide
  unfold extractTransportname
  rw [splitLines_mkRecord entries hnl]
  simp only [findTransportValue, hbegin, Bool.false_eq_true, if_false, List.append_eq]
  rw [findTransportValue_mkLines entries hsp]

/-- Closed instance of `extractTransportname_resolution` on a record with a non-default
transport: the literal value is returned. -/
theorem extractTransportname_resolution_witness :
    extractTransportname (mkRecord
        [("iface.iscsi_ifacename", "default"), ("iface.transport_name", "cxgb4i"),
         ("iface.initiatorname", "<empty>")])
      = "cxgb4i" := by
  have h := extractTransportname_resolution
    [("iface.iscsi_ifacename", "default"), ("iface.transport_name", "cxgb4i"),
     ("iface.initiatorname", "<empty>")] (by decide)
  exact h.trans (by decide)

end IscsiSpec
